import Mathlib

/-
Verification of the AFD command-dispatch and pipeline-orchestration core
(`packages/rust/src`: commands.rs, batch.rs, pipeline.rs, result.rs,
errors.rs, metadata.rs) against its natural-language specification.

Embedding conventions:
- `serde_json::Value` is modelled by the inductive `Json`; JSON numbers and
  the `f64` confidence scores are modelled as exact rationals `ℚ` (the
  claims only concern orderings, minima and means, which transfer).
- Byte-indexed Rust string slicing (`&s[6..]`, `starts_with`, `split('.')`)
  operates on ASCII patterns only, so it is modelled character-wise on
  `String.data` with structural recursion (kernel-evaluable).
- Wall-clock measurements (`Instant::now`, `chrono::Utc::now`) are abstracted
  into a `BatchClock` parameter supplying the observed timestamps and
  per-item elapsed durations; the claims quantify over all clocks.
- Async handlers are modelled as pure functions `Json → CommandContext →
  CommandResult`; the registry `HashMap` is an association list with the
  unique-key invariant maintained by `register`.
-/

namespace AFD

-- ═══════════════════════════════════════════════════════════════════════════
-- JSON VALUES (serde_json::Value)
-- ═══════════════════════════════════════════════════════════════════════════

/-- Model of `serde_json::Value`. Objects are association lists with unique
keys (serde's map); numbers are exact rationals. -/
inductive Json where
  | null : Json
  | bool : Bool → Json
  | num : ℚ → Json
  | str : String → Json
  | arr : List Json → Json
  | obj : List (String × Json) → Json
deriving Inhabited

/-- Model of `Value::get` with a string index: object member lookup, `None`
on any non-object. -/
def Json.getKey : Json → String → Option Json
  | .obj fields, key => fields.lookup key
  | _, _ => none

/-- Model of `Value::get` with a `usize` index: array element lookup, `None`
on any non-array. -/
def Json.getIdx : Json → Nat → Option Json
  | .arr xs, i => xs.get? i
  | _, _ => none

/-- Model of `Value::as_f64`: numbers coerce, everything else is `None`. -/
def Json.asF64 : Json → Option ℚ
  | .num q => some q
  | _ => none

/-- Model of `Value::is_null`. -/
def Json.isNull : Json → Bool
  | .null => true
  | _ => false

/-- Model of `PartialEq` on `serde_json::Value` (structural equality; object
comparison is field-list equality, which agrees with serde maps because keys
are unique and insertion-ordered in this model). -/
def Json.beq : Json → Json → Bool
  | .null, .null => true
  | .bool a, .bool b => a == b
  | .num a, .num b => a == b
  | .str a, .str b => a == b
  | .arr xs, .arr ys =>
    xs.length == ys.length &&
      (xs.zip ys).attach.all (fun p => Json.beq p.1.1 p.1.2)
  | .obj xs, .obj ys =>
    xs.length == ys.length &&
      (xs.zip ys).attach.all
        (fun p => p.1.1.1 == p.1.2.1 && Json.beq p.1.1.2 p.1.2.2)
  | _, _ => false
termination_by j _ => sizeOf j
decreasing_by
  · obtain ⟨⟨a, b⟩, hmem⟩ := p
    have h := List.of_mem_zip hmem
    have h1 := List.sizeOf_lt_of_mem h.1
    simp only [Json.arr.sizeOf_spec]
    omega
  · obtain ⟨⟨⟨ka, va⟩, kb, vb⟩, hmem⟩ := p
    have h := List.of_mem_zip hmem
    have h1 := List.sizeOf_lt_of_mem h.1
    simp only [Json.obj.sizeOf_spec, Prod.mk.sizeOf_spec] at h1 ⊢
    omega

instance : BEq Json := ⟨Json.beq⟩

-- ═══════════════════════════════════════════════════════════════════════════
-- CHARACTER-LEVEL STRING PRIMITIVES (ASCII patterns only)
-- ═══════════════════════════════════════════════════════════════════════════

/-- Character-list prefix test (the nil case inspects only the pattern, so
terms with a symbolic tail still reduce). -/
def charsPrefixOf : List Char → List Char → Bool
  | [], _ => true
  | c :: cs, ds =>
    match ds with
    | [] => false
    | d :: ds2 => c == d && charsPrefixOf cs ds2

/-- Model of `str::starts_with` (ASCII patterns, so bytes = chars). -/
def strStartsWith (s p : String) : Bool :=
  charsPrefixOf p.data s.data

/-- Model of the byte slice `&s[n..]` for ASCII prefixes of known length. -/
def strDrop (s : String) (n : Nat) : String :=
  String.mk (s.data.drop n)

/-- Word character of the regex class `\w`. -/
def isWordChar (c : Char) : Bool :=
  c.isAlphanum || c == '_'

/-- Model of `str::parse::<usize>` on a string of decimal digits. -/
def digitsToNat (ds : List Char) : Nat :=
  ds.foldl (fun n c => n * 10 + (c.toNat - 48)) 0

/-- Helper for `splitOnChar`: accumulates the current segment (reversed). -/
def splitOnCharAux (sep : Char) : List Char → List Char → List String
  | [], acc => [String.mk acc.reverse]
  | c :: cs, acc =>
    if c == sep then String.mk acc.reverse :: splitOnCharAux sep cs []
    else splitOnCharAux sep cs (c :: acc)

/-- Model of `str::split(sep)` collected to a list: the empty string yields
`[""]`, and a trailing separator yields a trailing `""`. -/
def splitOnChar (s : String) (sep : Char) : List String :=
  splitOnCharAux sep s.data []

-- ═══════════════════════════════════════════════════════════════════════════
-- ERROR MODEL (errors.rs)
-- ═══════════════════════════════════════════════════════════════════════════

/-- Model of `CommandError` (code, message, suggestion, retryable, details,
chained cause). Recursive through `cause`, hence an inductive. -/
inductive CommandError where
  | mk (code : String) (message : String) (suggestion : Option String)
       (retryable : Option Bool) (details : Option (List (String × Json)))
       (cause : Option CommandError)

/-- Field accessor for `CommandError.code`. -/
def CommandError.code : CommandError → String
  | .mk c _ _ _ _ _ => c

/-- Field accessor for `CommandError.message`. -/
def CommandError.message : CommandError → String
  | .mk _ m _ _ _ _ => m

/-- Field accessor for `CommandError.suggestion`. -/
def CommandError.suggestion : CommandError → Option String
  | .mk _ _ s _ _ _ => s

/-- Field accessor for `CommandError.retryable`. -/
def CommandError.retryable : CommandError → Option Bool
  | .mk _ _ _ r _ _ => r

-- ═══════════════════════════════════════════════════════════════════════════
-- TRUST-SIGNAL METADATA (metadata.rs)
-- ═══════════════════════════════════════════════════════════════════════════

/-- Model of `SourceType`. -/
inductive SourceType where
  | document | api | database | userInput | calculation | llm | other
deriving DecidableEq

/-- Model of `Source`. -/
structure Source where
  name : String
  source_type : SourceType
  url : Option String
  accessed_at : Option String
  relevance : Option ℚ
  snippet : Option String

/-- Model of `PlanStepStatus`. -/
inductive PlanStepStatus where
  | pending | inProgress | completed | failed | skipped
deriving DecidableEq

/-- Model of `PlanStep`. -/
structure PlanStep where
  step : Nat
  description : String
  status : PlanStepStatus
  duration_ms : Option Nat
  error : Option String
  details : Option (List (String × Json))

/-- Model of `Alternative<serde_json::Value>`. -/
structure Alternative where
  data : Json
  reason : String
  confidence : Option ℚ

/-- Model of `WarningSeverity`. -/
inductive WarningSeverity where
  | info | warning | critical
deriving DecidableEq

/-- Model of `Warning`. -/
structure Warning where
  code : String
  message : String
  severity : Option WarningSeverity
  context : Option (List (String × Json))

-- ═══════════════════════════════════════════════════════════════════════════
-- RESULT MODEL (result.rs)
-- ═══════════════════════════════════════════════════════════════════════════

/-- Model of `ResultMetadata`. -/
structure ResultMetadata where
  execution_time_ms : Option Nat
  command_version : Option String
  trace_id : Option String
  timestamp : Option String
  extra : List (String × Json)

/-- Model of `CommandResult<serde_json::Value>`: tagged outcome envelope plus
optional trust-signal fields. -/
structure CommandResult where
  success : Bool
  data : Option Json
  error : Option CommandError
  confidence : Option ℚ
  reasoning : Option String
  sources : Option (List Source)
  plan : Option (List PlanStep)
  alternatives : Option (List Alternative)
  warnings : Option (List Warning)
  metadata : Option ResultMetadata

-- ═══════════════════════════════════════════════════════════════════════════
-- COMMAND MODEL (commands.rs)
-- ═══════════════════════════════════════════════════════════════════════════

/-- Model of `JsonSchemaType`. -/
inductive JsonSchemaType where
  | string | number | boolean | object | array | null | integer
deriving DecidableEq

/-- Model of the recursive `JsonSchema` subset (recursive through `items`,
`properties`, `additional_properties`). -/
inductive JsonSchema where
  | mk (schema_type : Option JsonSchemaType) (description : Option String)
       (required : Option (List String)) (default : Option Json)
       (enum_values : Option (List Json)) (items : Option JsonSchema)
       (properties : List (String × JsonSchema))
       (additional_properties : Option JsonSchema)
       (minimum : Option ℚ) (maximum : Option ℚ)
       (min_length : Option Nat) (max_length : Option Nat)
       (pattern : Option String) (format : Option String)

/-- Model of `CommandParameter`. -/
structure CommandParameter where
  name : String
  param_type : JsonSchemaType
  description : String
  required : Bool
  default : Option Json
  enum_values : Option (List Json)
  schema : Option JsonSchema

/-- Model of `CommandContext`: per-invocation metadata. -/
structure CommandContext where
  trace_id : Option String
  timeout_ms : Option Nat
  extra : List (String × Json)

/-- Model of `CommandContext::default()` (all fields empty). -/
def CommandContext.default : CommandContext :=
  { trace_id := none, timeout_ms := none, extra := [] }

/-- Model of `ExecutionTime`. -/
inductive ExecutionTime where
  | instant | fast | slow | longRunning
deriving DecidableEq

/-- Model of `CommandDefinition`. The async `CommandHandler` trait object is
modelled as a pure function `Json → CommandContext → CommandResult`. -/
structure CommandDefinition where
  name : String
  description : String
  category : Option String
  parameters : List CommandParameter
  returns : Option JsonSchema
  errors : Option (List String)
  handoff : Bool
  handoff_protocol : Option String
  handler : Json → CommandContext → CommandResult
  version : Option String
  tags : Option (List String)
  mutation : Bool
  execution_time : Option ExecutionTime

/-- Model of `CommandDefinition::execute`: delegates to the handler. -/
def CommandDefinition.execute (c : CommandDefinition) (input : Json)
    (context : CommandContext) : CommandResult :=
  c.handler input context

-- ═══════════════════════════════════════════════════════════════════════════
-- COMMAND REGISTRY (commands.rs)
-- ═══════════════════════════════════════════════════════════════════════════

/-- Model of `CommandRegistry`: the `HashMap<String, Arc<CommandDefinition>>`
is an association list whose keys `register` keeps unique. -/
structure CommandRegistry where
  commands : List (String × CommandDefinition)

/-- Model of `CommandRegistry::new`. -/
def CommandRegistry.new : CommandRegistry := ⟨[]⟩

/-- Model of `CommandRegistry::register`: fails without modification when the
name is already taken, else inserts the binding. -/
def CommandRegistry.register (r : CommandRegistry) (command : CommandDefinition) :
    Except String CommandRegistry :=
  if (r.commands.lookup command.name).isSome then
    Except.error ("Command '" ++ command.name ++ "' is already registered")
  else
    Except.ok ⟨r.commands ++ [(command.name, command)]⟩

/-- Model of `CommandRegistry::get`. -/
def CommandRegistry.get (r : CommandRegistry) (name : String) :
    Option CommandDefinition :=
  r.commands.lookup name

/-- Model of `CommandRegistry::has`. -/
def CommandRegistry.has (r : CommandRegistry) (name : String) : Bool :=
  (r.commands.lookup name).isSome

/-- The `COMMAND_NOT_FOUND` failure result built inline by
`CommandRegistry::execute` on lookup miss. -/
def commandNotFound (name : String) : CommandResult :=
  { success := false
    data := none
    error := some (CommandError.mk "COMMAND_NOT_FOUND"
      ("Command '" ++ name ++ "' not found")
      (some "Use 'afd tools' to see available commands")
      (some false) none none)
    confidence := none, reasoning := none, sources := none, plan := none
    alternatives := none, warnings := none, metadata := none }

/-- Model of `CommandRegistry::execute`: lookup miss yields the structured
`COMMAND_NOT_FOUND` result; on hit the handler runs with the supplied context
or a default-constructed one. -/
def CommandRegistry.execute (r : CommandRegistry) (name : String) (input : Json)
    (context : Option CommandContext) : CommandResult :=
  match r.commands.lookup name with
  | none => commandNotFound name
  | some command => command.execute input (context.getD CommandContext.default)

-- ═══════════════════════════════════════════════════════════════════════════
-- BATCH TYPES (batch.rs)
-- ═══════════════════════════════════════════════════════════════════════════

/-- Model of `BatchCommand<serde_json::Value>`. -/
structure BatchCommand where
  id : String
  command : String
  input : Json
  tags : Option (List String)
  priority : Option Int

/-- Model of `BatchOptions`. -/
structure BatchOptions where
  continue_on_error : Bool
  max_concurrency : Option Nat
  timeout_ms : Option Nat
  max_failures : Option Nat

/-- Model of `BatchOptions::default()`. -/
def BatchOptions.default : BatchOptions :=
  { continue_on_error := false, max_concurrency := none,
    timeout_ms := none, max_failures := none }

/-- Model of `BatchRequest<serde_json::Value>`. -/
structure BatchRequest where
  commands : List BatchCommand
  options : BatchOptions
  context : Option (List (String × Json))

/-- Model of `BatchCommandResult<serde_json::Value>`. -/
structure BatchCommandResult where
  id : String
  command : String
  result : CommandResult
  duration_ms : Option Nat

/-- Model of `BatchSummary`. -/
structure BatchSummary where
  total : Nat
  succeeded : Nat
  failed : Nat
  skipped : Nat
  average_confidence : Option ℚ

/-- Model of `BatchSummary::new`: note that it always leaves
`average_confidence` as `None`. -/
def BatchSummary.new (total succeeded failed skipped : Nat) : BatchSummary :=
  { total := total, succeeded := succeeded, failed := failed,
    skipped := skipped, average_confidence := none }

/-- Model of `BatchTiming`. -/
structure BatchTiming where
  started_at : String
  ended_at : Option String
  total_ms : Option Nat
  average_ms : Option Nat

/-- Model of `BatchResult<serde_json::Value>`. -/
structure BatchResult where
  success : Bool
  results : List BatchCommandResult
  summary : BatchSummary
  timing : BatchTiming
  error : Option CommandError

/-- The confidence values extracted by `calculate_batch_confidence`: the
successful items' `confidence` fields (items without one are dropped). -/
def successItemConfidences (results : List BatchCommandResult) : List ℚ :=
  results.filterMap
    (fun r => if r.result.success then r.result.confidence else none)

/-- Model of `calculate_batch_confidence`: mean of `confidence` over the
successful items that carry one, `None` when there are none. -/
def calculate_batch_confidence (results : List BatchCommandResult) : Option ℚ :=
  let confidences := successItemConfidences results
  if confidences.isEmpty then none
  else some (confidences.foldl (· + ·) 0 / confidences.length)

-- ═══════════════════════════════════════════════════════════════════════════
-- BATCH EXECUTOR (commands.rs, CommandRegistry::execute_batch)
-- ═══════════════════════════════════════════════════════════════════════════

/-- Abstraction of the wall clock observed by `execute_batch`: the two
`chrono::Utc::now` timestamps, the `Instant` total, and the per-item elapsed
duration at each position. The claims quantify over all clocks. -/
structure BatchClock where
  startedAt : String
  endedAt : String
  totalMs : Nat
  itemMs : Nat → Nat

/-- The synthetic error attached to items skipped after an earlier failure. -/
def skippedCommandError : CommandError :=
  CommandError.mk "COMMAND_SKIPPED" "Command skipped due to previous error"
    none none none none

/-- The synthetic `CommandResult` recorded for skipped batch items. -/
def skippedResult : CommandResult :=
  { success := false, data := none, error := some skippedCommandError,
    confidence := none, reasoning := none, sources := none, plan := none,
    alternatives := none, warnings := none, metadata := none }

/-- The padded entry recorded for an item skipped after an earlier failure:
id and command preserved, zero duration. -/
def skippedEntry (cmd : BatchCommand) : BatchCommandResult :=
  { id := cmd.id, command := cmd.command, result := skippedResult,
    duration_ms := some 0 }

/-- The `for` loop of `execute_batch`: `i` is the enumeration index and
`stopped` the stop-on-first-error flag. -/
def CommandRegistry.batchItems (r : CommandRegistry) (options : BatchOptions)
    (itemMs : Nat → Nat) : List BatchCommand → Nat → Bool → List BatchCommandResult
  | [], _, _ => []
  | cmd :: rest, i, stopped =>
    if stopped then
      skippedEntry cmd :: r.batchItems options itemMs rest (i + 1) true
    else
      let result := r.execute cmd.command cmd.input none
      let isFailure := !result.success
      { id := cmd.id, command := cmd.command, result := result,
        duration_ms := some (itemMs i) } ::
        r.batchItems options itemMs rest (i + 1)
          (isFailure && !options.continue_on_error)

/-- The batch-level error returned for an empty request. -/
def invalidBatchError : CommandError :=
  CommandError.mk "INVALID_BATCH_REQUEST"
    "Batch request must contain at least one command"
    (some "Provide an array of commands to execute") (some false) none none

/-- Model of `CommandRegistry::execute_batch`. An empty request is a
request-level failure; otherwise items run in order with stop-padding, and
the summary is derived from the recorded results via `BatchSummary::new`. -/
def CommandRegistry.execute_batch (r : CommandRegistry) (clock : BatchClock)
    (request : BatchRequest) : BatchResult :=
  if request.commands.isEmpty then
    { success := false
      results := []
      summary := BatchSummary.new 0 0 0 0
      timing := { started_at := clock.startedAt, ended_at := some clock.endedAt,
                  total_ms := some 0, average_ms := none }
      error := some invalidBatchError }
  else
    let results := r.batchItems request.options clock.itemMs request.commands 0 false
    let total := results.length
    let succeeded := (results.filter (fun e => e.result.success)).length
    let failed := total - succeeded
    { success := failed == 0
      results := results
      summary := BatchSummary.new total succeeded failed 0
      timing := { started_at := clock.startedAt, ended_at := some clock.endedAt,
                  total_ms := some clock.totalMs,
                  average_ms := if total > 0 then some (clock.totalMs / total) else none }
      error := none }

-- ═══════════════════════════════════════════════════════════════════════════
-- PIPELINE TYPES (pipeline.rs)
-- ═══════════════════════════════════════════════════════════════════════════

/-- Model of `StepStatus`. -/
inductive StepStatus where
  | Success | Failure | Skipped
deriving DecidableEq, BEq

/-- Model of `StepMetadata`. -/
structure StepMetadata where
  confidence : Option ℚ
  reasoning : Option String
  sources : Option (List Source)
  warnings : Option (List Warning)
  alternatives : Option (List Alternative)

/-- Model of `StepResult`. The Rust field `alias` is modelled as `alias_`
because `alias` is reserved in Lean. -/
structure StepResult where
  index : Nat
  alias_ : Option String
  command : String
  status : StepStatus
  data : Option Json
  error : Option CommandError
  execution_time_ms : Nat
  metadata : Option StepMetadata

/-- Model of `PipelineContext`: pipeline input, previous step result, and all
completed step results. -/
structure PipelineContext where
  pipeline_input : Option Json
  previous_result : Option StepResult
  steps : List StepResult

/-- Model of `PipelineCondition`: the boolean expression tree of `when`
clauses. -/
inductive PipelineCondition where
  | Exists : String → PipelineCondition
  | Eq : String → Json → PipelineCondition
  | Ne : String → Json → PipelineCondition
  | Gt : String → ℚ → PipelineCondition
  | Gte : String → ℚ → PipelineCondition
  | Lt : String → ℚ → PipelineCondition
  | Lte : String → ℚ → PipelineCondition
  | And : List PipelineCondition → PipelineCondition
  | Or : List PipelineCondition → PipelineCondition
  | Not : PipelineCondition → PipelineCondition

-- ═══════════════════════════════════════════════════════════════════════════
-- VARIABLE RESOLUTION (pipeline.rs)
-- ═══════════════════════════════════════════════════════════════════════════

/-- Parse of one path segment against the regex `^(\w+)\[(\d+)\]$` of
`get_nested_value` (array index notation `items[0]`). -/
def parseArrayPart (part : String) : Option (String × Nat) :=
  let cs := part.data
  let prop := cs.takeWhile isWordChar
  let rest := cs.dropWhile isWordChar
  if prop.isEmpty then none
  else match rest with
    | '[' :: rest2 =>
      let digits := rest2.takeWhile Char.isDigit
      let rest3 := rest2.dropWhile Char.isDigit
      if digits.isEmpty then none
      else match rest3 with
        | [']'] => some (String.mk prop, digitsToNat digits)
        | _ => none
    | _ => none

/-- One iteration of the `get_nested_value` loop on one path segment. -/
def getNestedStep (cur : Json) (part : String) : Option Json :=
  match parseArrayPart part with
  | some (prop, index) => (cur.getKey prop).bind (fun v => v.getIdx index)
  | none => cur.getKey part

/-- The full `get_nested_value` loop over the split path segments. -/
def getNestedAux : List String → Json → Option Json
  | [], cur => some cur
  | p :: ps, cur => (getNestedStep cur p).bind (getNestedAux ps)

/-- Model of `get_nested_value`: dot-notation traversal with array index
suffixes; a missing intermediate key terminates with `None`. -/
def get_nested_value (obj : Json) (path : String) : Option Json :=
  getNestedAux (splitOnChar path '.') obj

/-- The `$steps[n]` branch of `resolve_variable` (regex `^\$steps\[(\d+)\]`,
unanchored at the end). A failed regex match falls through to `None` because
no later branch can match a reference starting with `$steps[`. -/
def stepsIndexBranch (reference : String) (context : PipelineContext) :
    Option Json :=
  let after := reference.data.drop 7
  let digits := after.takeWhile Char.isDigit
  let rest := after.dropWhile Char.isDigit
  if digits.isEmpty then none
  else match rest with
    | ']' :: remaining =>
      match context.steps.get? (digitsToNat digits) with
      | none => none
      | some step =>
        match remaining with
        | '.' :: pathCs => step.data.bind (fun d => get_nested_value d (String.mk pathCs))
        | _ => step.data
    | _ => none

/-- The `$steps.alias` branch of `resolve_variable`: alias is the text up to
the first `.` after `$steps.`; the first step with that alias is used. -/
def stepsAliasBranch (reference : String) (context : PipelineContext) :
    Option Json :=
  let rest := reference.data.drop 7
  let aliasCs := rest.takeWhile (fun c => c != '.')
  let tail := rest.dropWhile (fun c => c != '.')
  match context.steps.find? (fun s => s.alias_ == some (String.mk aliasCs)) with
  | none => none
  | some step =>
    match tail with
    | '.' :: pathCs => step.data.bind (fun d => get_nested_value d (String.mk pathCs))
    | _ => step.data

/-- Model of `resolve_variable`: the branch cascade of pipeline.rs in source
order. A non-`$` string is returned as a literal. -/
def resolve_variable (reference : String) (context : PipelineContext) :
    Option Json :=
  if strStartsWith reference "$" = false then some (Json.str reference)
  else if reference = "$prev" then
    context.previous_result.bind (fun r => r.data)
  else if reference = "$first" then
    context.steps.head?.bind (fun s => s.data)
  else if reference = "$input" then
    context.pipeline_input
  else if strStartsWith reference "$steps[" then
    stepsIndexBranch reference context
  else if strStartsWith reference "$steps." then
    stepsAliasBranch reference context
  else if strStartsWith reference "$prev." then
    (context.previous_result.bind (fun r => r.data)).bind
      (fun d => get_nested_value d (strDrop reference 6))
  else if strStartsWith reference "$first." then
    (context.steps.head?.bind (fun s => s.data)).bind
      (fun d => get_nested_value d (strDrop reference 7))
  else if strStartsWith reference "$input." then
    context.pipeline_input.bind
      (fun d => get_nested_value d (strDrop reference 7))
  else none

/-- Model of `resolve_variables`: structural recursion over the JSON tree,
substituting `$`-prefixed string leaves (with `null` for unresolved
references) and leaving everything else unchanged. -/
def resolve_variables (input : Json) (context : PipelineContext) : Json :=
  match input with
  | .str s =>
    if strStartsWith s "$" then (resolve_variable s context).getD Json.null
    else .str s
  | .arr xs => .arr (xs.attach.map (fun j => resolve_variables j.1 context))
  | .obj fields =>
    .obj (fields.attach.map (fun kv => (kv.1.1, resolve_variables kv.1.2 context)))
  | other => other
termination_by sizeOf input
decreasing_by
  · obtain ⟨a, hmem⟩ := j
    have := List.sizeOf_lt_of_mem hmem
    simp only [Json.arr.sizeOf_spec]
    omega
  · obtain ⟨⟨k, v⟩, hmem⟩ := kv
    have h1 := List.sizeOf_lt_of_mem hmem
    simp only [Json.obj.sizeOf_spec, Prod.mk.sizeOf_spec] at h1 ⊢
    omega

-- ═══════════════════════════════════════════════════════════════════════════
-- CONDITION EVALUATION (pipeline.rs)
-- ═══════════════════════════════════════════════════════════════════════════

/-- Model of `evaluate_condition`: bottom-up evaluation of the condition
tree; numeric comparisons coerce through `as_f64` and default to `false`. -/
def evaluate_condition (condition : PipelineCondition)
    (context : PipelineContext) : Bool :=
  match condition with
  | .Exists ref =>
    let value := resolve_variable ref context
    value.isSome && !((value.map Json.isNull).getD true)
  | .Eq ref expected => resolve_variable ref context == some expected
  | .Ne ref expected => !(resolve_variable ref context == some expected)
  | .Gt ref threshold =>
    (((resolve_variable ref context).bind Json.asF64).map
      (fun n => decide (n > threshold))).getD false
  | .Gte ref threshold =>
    (((resolve_variable ref context).bind Json.asF64).map
      (fun n => decide (n ≥ threshold))).getD false
  | .Lt ref threshold =>
    (((resolve_variable ref context).bind Json.asF64).map
      (fun n => decide (n < threshold))).getD false
  | .Lte ref threshold =>
    (((resolve_variable ref context).bind Json.asF64).map
      (fun n => decide (n ≤ threshold))).getD false
  | .And conditions =>
    conditions.attach.all (fun c => evaluate_condition c.1 context)
  | .Or conditions =>
    conditions.attach.any (fun c => evaluate_condition c.1 context)
  | .Not inner => !(evaluate_condition inner context)
termination_by sizeOf condition
decreasing_by
  · obtain ⟨a, hmem⟩ := c
    have := List.sizeOf_lt_of_mem hmem
    simp only [PipelineCondition.And.sizeOf_spec]
    omega
  · obtain ⟨a, hmem⟩ := c
    have := List.sizeOf_lt_of_mem hmem
    simp only [PipelineCondition.Or.sizeOf_spec]
    omega
  · simp only [PipelineCondition.Not.sizeOf_spec]
    omega

-- ═══════════════════════════════════════════════════════════════════════════
-- CONFIDENCE AGGREGATION (pipeline.rs)
-- ═══════════════════════════════════════════════════════════════════════════

/-- The confidence contributions collected by
`aggregate_pipeline_confidence`: successful steps only, with an absent
confidence defaulting to 1. -/
def successConfidences (steps : List StepResult) : List ℚ :=
  (steps.filter (fun s => s.status == StepStatus.Success)).map
    (fun s => (s.metadata.bind (fun m => m.confidence)).getD 1)

/-- Model of `aggregate_pipeline_confidence`. The Rust fold starts from
`f64::INFINITY`, so on a non-empty list it is exactly the list minimum;
`min ∞ c = c` unfolds the first step, leaving `cs.foldl min c`. -/
def aggregate_pipeline_confidence (steps : List StepResult) : ℚ :=
  match successConfidences steps with
  | [] => 0
  | c :: cs => cs.foldl min c

-- ═══════════════════════════════════════════════════════════════════════════
-- CONCRETE FIXTURES FOR WITNESSES AND COUNTEREXAMPLES
-- ═══════════════════════════════════════════════════════════════════════════

/-- A `CommandResult` with only the core success fields set (result.rs
`success` constructor shape). -/
def plainSuccess (d : Json) : CommandResult :=
  { success := true, data := some d, error := none, confidence := none,
    reasoning := none, sources := none, plan := none, alternatives := none,
    warnings := none, metadata := none }

/-- Handler that echoes its input back as a success. -/
def echoHandler : Json → CommandContext → CommandResult :=
  fun input _ => plainSuccess input

/-- Handler that succeeds with a confidence of 1/2. -/
def confHandler : Json → CommandContext → CommandResult :=
  fun input _ => { plainSuccess input with confidence := some (1/2) }

/-- Handler that always fails with a `BOOM` error. -/
def failHandler : Json → CommandContext → CommandResult :=
  fun _ _ =>
    { success := false, data := none,
      error := some (CommandError.mk "BOOM" "failed" none (some false) none none),
      confidence := none, reasoning := none, sources := none, plan := none,
      alternatives := none, warnings := none, metadata := none }

/-- Fixture command definition around `echoHandler`. -/
def cmdEcho : CommandDefinition :=
  { name := "test.echo", description := "Echoes input back", category := none,
    parameters := [], returns := none, errors := none, handoff := false,
    handoff_protocol := none, handler := echoHandler, version := none,
    tags := none, mutation := false, execution_time := none }

/-- A second definition sharing `cmdEcho`'s name (duplicate registration). -/
def cmdEchoDup : CommandDefinition :=
  { cmdEcho with description := "Conflicting duplicate" }

/-- Fixture command definition around `confHandler`. -/
def cmdConf : CommandDefinition :=
  { cmdEcho with name := "test.conf", handler := confHandler }

/-- Fixture command definition around `failHandler`. -/
def cmdFail : CommandDefinition :=
  { cmdEcho with name := "test.fail", handler := failHandler }

/-- Registry holding exactly `cmdEcho` (the result of registering it into an
empty registry). -/
def regEcho : CommandRegistry := ⟨[("test.echo", cmdEcho)]⟩

/-- Registry holding the echo, confidence and failing fixtures. -/
def regMixed : CommandRegistry :=
  ⟨[("test.echo", cmdEcho), ("test.conf", cmdConf), ("test.fail", cmdFail)]⟩

/-- A fixed clock observation for the concrete batch executions. -/
def clock0 : BatchClock :=
  { startedAt := "2025-01-01T00:00:00Z", endedAt := "2025-01-01T00:00:01Z",
    totalMs := 1000, itemMs := fun _ => 5 }

/-- Batch request with a single succeeding item that carries confidence. -/
def confReq : BatchRequest :=
  { commands := [{ id := "1", command := "test.conf", input := Json.null,
                   tags := none, priority := none }],
    options := BatchOptions.default, context := none }

/-- Batch request whose second item fails, followed by two more items. -/
def stopReq : BatchRequest :=
  { commands :=
      [{ id := "1", command := "test.echo", input := Json.null,
         tags := none, priority := none },
       { id := "2", command := "test.fail", input := Json.null,
         tags := none, priority := none },
       { id := "3", command := "test.echo", input := Json.null,
         tags := none, priority := none },
       { id := "4", command := "test.missing", input := Json.null,
         tags := none, priority := none }],
    options := BatchOptions.default, context := none }

/-- The empty batch request. -/
def emptyReq : BatchRequest :=
  { commands := [], options := BatchOptions.default, context := none }

/-- The spec's example previous-step data with fields id and name. -/
def prevData : Json :=
  .obj [("id", .num 123), ("name", .str "Test")]

/-- The previous step holding `prevData`. -/
def prevStep : StepResult :=
  { index := 0, alias_ := none, command := "test", status := .Success,
    data := some prevData, error := none, execution_time_ms := 10,
    metadata := none }

/-- Pipeline context whose previous step produced the spec's example data
with fields id and name. -/
def prevCtx : PipelineContext :=
  { pipeline_input := none
    previous_result := some prevStep
    steps := [] }

/-- Helper for concrete step results carrying only a confidence. -/
def confStep (i : Nat) (st : StepStatus) (conf : Option ℚ) : StepResult :=
  { index := i, alias_ := none, command := "cmd", status := st,
    data := some Json.null, error := none, execution_time_ms := 10,
    metadata := some { confidence := conf, reasoning := none, sources := none,
                       warnings := none, alternatives := none } }

/-- The spec's confidence-aggregation example: successful steps with
confidences 0.9 and 0.7 plus one failed step with confidence 0.5. -/
def exampleConfSteps : List StepResult :=
  [confStep 0 .Success (some (9/10)),
   confStep 1 .Success (some (7/10)),
   confStep 2 .Failure (some (1/2))]

-- ═══════════════════════════════════════════════════════════════════════════
-- HELPER LEMMAS
-- ═══════════════════════════════════════════════════════════════════════════

/-- Association-list lookup skips a block in which the key is absent. -/
theorem lookup_append_none {β : Type} (k : String) (l1 l2 : List (String × β))
    (h : l1.lookup k = none) : (l1 ++ l2).lookup k = l2.lookup k := by
  induction l1 with
  | nil => rfl
  | cons x xs ih =>
    obtain ⟨k1, v1⟩ := x
    simp only [List.cons_append, List.lookup] at h ⊢
    cases hbe : (k == k1) with
    | false => rw [hbe] at h; exact ih h
    | true => rw [hbe] at h; simp at h

-- ═══════════════════════════════════════════════════════════════════════════
-- C6 — DUPLICATE REGISTRATION
-- ═══════════════════════════════════════════════════════════════════════════

/-- C6: after a registration of `c1` succeeds, registering any `c2` with the
same name returns an error, never yields a registry, and lookups by that name
still return the originally registered `c1` (no overwrite). -/
theorem register_duplicate_rejected
    (r r1 : CommandRegistry) (c1 c2 : CommandDefinition)
    (hname : c2.name = c1.name)
    (h1 : r.register c1 = Except.ok r1) :
    (∃ msg, r1.register c2 = Except.error msg) ∧
    (∀ r2, r1.register c2 ≠ Except.ok r2) ∧
    r1.get c1.name = some c1 := by
  unfold CommandRegistry.register at h1
  by_cases hl : (r.commands.lookup c1.name).isSome = true
  · rw [if_pos hl] at h1
    exact absurd h1 (by simp)
  · rw [if_neg hl] at h1
    have hr1 : r1 = ⟨r.commands ++ [(c1.name, c1)]⟩ := by
      cases h1
      rfl
    subst hr1
    have hnone : r.commands.lookup c1.name = none := by
      cases hcase : r.commands.lookup c1.name with
      | none => rfl
      | some v => rw [hcase] at hl; simp at hl
    have hget : (r.commands ++ [(c1.name, c1)]).lookup c1.name = some c1 := by
      rw [lookup_append_none c1.name _ _ hnone]
      simp [List.lookup]
    have hsome :
        ((r.commands ++ [(c1.name, c1)]).lookup c2.name).isSome = true := by
      rw [hname, hget]
      rfl
    refine ⟨⟨"Command '" ++ c2.name ++ "' is already registered", ?_⟩, ?_, hget⟩
    · unfold CommandRegistry.register
      rw [if_pos hsome]
    · intro r2 hcontra
      unfold CommandRegistry.register at hcontra
      rw [if_pos hsome] at hcontra
      simp at hcontra

/-- Witness for C6 at the concrete echo fixtures. -/
theorem register_duplicate_rejected_witness :
    (∃ msg, regEcho.register cmdEchoDup = Except.error msg) ∧
    (∀ r2, regEcho.register cmdEchoDup ≠ Except.ok r2) ∧
    regEcho.get cmdEcho.name = some cmdEcho :=
  register_duplicate_rejected CommandRegistry.new regEcho cmdEcho cmdEchoDup
    rfl rfl

-- ═══════════════════════════════════════════════════════════════════════════
-- C7 — EXECUTE CONTRACT
-- ═══════════════════════════════════════════════════════════════════════════

/-- C7: executing an unregistered name returns (never panics) the structured
COMMAND_NOT_FOUND failure with a suggestion and retryable=false; executing a
registered name invokes its handler, with a default-constructed context when
none is supplied, and returns exactly the handler's result. -/
theorem execute_contract (r : CommandRegistry) (name : String) (input : Json)
    (cmd : CommandDefinition) :
    (r.get name = none →
      ∀ ctxOpt : Option CommandContext,
        r.execute name input ctxOpt = commandNotFound name ∧
        (r.execute name input ctxOpt).success = false ∧
        ∃ e, (r.execute name input ctxOpt).error = some e ∧
          e.code = "COMMAND_NOT_FOUND" ∧
          e.suggestion.isSome = true ∧
          e.retryable = some false) ∧
    (r.get name = some cmd →
      r.execute name input none = cmd.handler input CommandContext.default ∧
      ∀ ctx : CommandContext,
        r.execute name input (some ctx) = cmd.handler input ctx) := by
  constructor
  · intro hmiss ctxOpt
    unfold CommandRegistry.get at hmiss
    unfold CommandRegistry.execute
    rw [hmiss]
    exact ⟨rfl, rfl, _, rfl, rfl, rfl, rfl⟩
  · intro hhit
    unfold CommandRegistry.get at hhit
    unfold CommandRegistry.execute
    rw [hhit]
    exact ⟨rfl, fun _ => rfl⟩

/-- Witness for C7: a miss on `regEcho` produces the not-found result, and a
hit returns exactly the handler's output under the default context. -/
theorem execute_contract_witness :
    regEcho.execute "nope" Json.null none = commandNotFound "nope" ∧
    regEcho.execute "test.echo" Json.null none =
      cmdEcho.handler Json.null CommandContext.default :=
  ⟨((execute_contract regEcho "nope" Json.null cmdEcho).1 rfl none).1,
   ((execute_contract regEcho "test.echo" Json.null cmdEcho).2 rfl).1⟩

-- ═══════════════════════════════════════════════════════════════════════════
-- C8 — EMPTY BATCH REQUEST
-- ═══════════════════════════════════════════════════════════════════════════

/-- C8: an empty batch request is a request-level failure — success=false,
an INVALID_BATCH_REQUEST error, and an empty results list — while any
non-empty request carries no batch-level error (so the outcome is distinct
from a batch in which every item failed). -/
theorem execute_batch_empty_request (r : CommandRegistry) (clock : BatchClock)
    (req : BatchRequest) (h : req.commands = []) :
    ((r.execute_batch clock req).success = false ∧
     (r.execute_batch clock req).results = [] ∧
     (r.execute_batch clock req).error = some invalidBatchError ∧
     invalidBatchError.code = "INVALID_BATCH_REQUEST") ∧
    (∀ req2 : BatchRequest, req2.commands ≠ [] →
      (r.execute_batch clock req2).error = none) := by
  constructor
  · unfold CommandRegistry.execute_batch
    rw [h]
    exact ⟨rfl, rfl, rfl, rfl⟩
  · intro req2 h2
    cases hc : req2.commands with
    | nil => exact absurd hc h2
    | cons a as =>
      unfold CommandRegistry.execute_batch
      rw [hc]
      rfl

/-- Witness for C8 at the concrete empty request. -/
theorem execute_batch_empty_request_witness :
    ((regMixed.execute_batch clock0 emptyReq).success = false ∧
     (regMixed.execute_batch clock0 emptyReq).results = [] ∧
     (regMixed.execute_batch clock0 emptyReq).error = some invalidBatchError ∧
     invalidBatchError.code = "INVALID_BATCH_REQUEST") ∧
    (∀ req2 : BatchRequest, req2.commands ≠ [] →
      (regMixed.execute_batch clock0 req2).error = none) :=
  execute_batch_empty_request regMixed clock0 emptyReq rfl

-- ═══════════════════════════════════════════════════════════════════════════
-- C10 — DERIVED BATCH SUMMARY
-- ═══════════════════════════════════════════════════════════════════════════

/-- C10: for a non-empty batch request the summary is derived from the
recorded results: skipped is 0 (padded items count as failed, never as
skipped), total is the results length, succeeded counts the successful
results, failed is total minus succeeded, and the success flag holds iff
failed is 0. -/
theorem execute_batch_summary_derived (r : CommandRegistry)
    (clock : BatchClock) (req : BatchRequest) (h : req.commands ≠ []) :
    (r.execute_batch clock req).summary.skipped = 0 ∧
    (r.execute_batch clock req).summary.total =
      (r.execute_batch clock req).results.length ∧
    (r.execute_batch clock req).summary.succeeded =
      ((r.execute_batch clock req).results.filter
        (fun e => e.result.success)).length ∧
    (r.execute_batch clock req).summary.failed =
      (r.execute_batch clock req).summary.total -
        (r.execute_batch clock req).summary.succeeded ∧
    ((r.execute_batch clock req).success = true ↔
      (r.execute_batch clock req).summary.failed = 0) := by
  cases hc : req.commands with
  | nil => exact absurd hc h
  | cons a as =>
    refine ⟨?_, ?_, ?_, ?_, ?_⟩ <;>
      simp only [CommandRegistry.execute_batch, hc, List.isEmpty_cons,
        Bool.false_eq_true, if_false, BatchSummary.new, beq_iff_eq]

-- ═══════════════════════════════════════════════════════════════════════════
-- FOLD LEMMAS FOR MIN AND SUM
-- ═══════════════════════════════════════════════════════════════════════════

/-- A min-fold never exceeds its seed. -/
theorem foldl_min_le_init (cs : List ℚ) : ∀ c : ℚ, cs.foldl min c ≤ c := by
  induction cs with
  | nil => intro c; exact le_refl c
  | cons d ds ih =>
    intro c
    exact le_trans (ih (min c d)) (min_le_left c d)

/-- A min-fold never exceeds any list element. -/
theorem foldl_min_le_mem (x : ℚ) (cs : List ℚ) :
    ∀ c : ℚ, x ∈ cs → cs.foldl min c ≤ x := by
  induction cs with
  | nil => intro c hx; cases hx
  | cons d ds ih =>
    intro c hx
    rcases List.mem_cons.mp hx with h | h
    · subst h
      exact le_trans (foldl_min_le_init ds (min c x)) (min_le_right c x)
    · exact ih (min c d) h

/-- A min-fold lands on its seed or on a list element. -/
theorem foldl_min_mem (cs : List ℚ) : ∀ c : ℚ, cs.foldl min c ∈ c :: cs := by
  induction cs with
  | nil => intro c; exact List.mem_singleton.mpr rfl
  | cons d ds ih =>
    intro c
    rw [List.foldl_cons]
    rcases List.mem_cons.mp (ih (min c d)) with h1 | h1
    · rw [h1]
      rcases min_choice c d with hm | hm
      · rw [hm]; exact List.mem_cons_self _ _
      · rw [hm]; exact List.mem_cons_of_mem _ (List.mem_cons_self _ _)
    · exact List.mem_cons_of_mem _ (List.mem_cons_of_mem _ h1)

/-- An add-fold from a seed is the seed plus the list sum. -/
theorem foldl_add_eq_sum (l : List ℚ) : ∀ a : ℚ, l.foldl (· + ·) a = a + l.sum := by
  induction l with
  | nil => intro a; simp
  | cons x xs ih =>
    intro a
    rw [List.foldl_cons, ih (a + x), List.sum_cons, add_assoc]

-- ═══════════════════════════════════════════════════════════════════════════
-- C3 — PIPELINE CONFIDENCE AGGREGATION
-- ═══════════════════════════════════════════════════════════════════════════

/-- C3: aggregate_pipeline_confidence is 0 when no step succeeded, and
otherwise the minimum over exactly the successful steps' confidences
(missing confidence contributing 1); on the spec's example of successful
confidences 0.9 and 0.7 plus a failed step it is 0.7. -/
theorem aggregate_confidence_minimum (steps : List StepResult) :
    (successConfidences steps = [] →
      aggregate_pipeline_confidence steps = 0) ∧
    (successConfidences steps ≠ [] →
      aggregate_pipeline_confidence steps ∈ successConfidences steps ∧
      ∀ x ∈ successConfidences steps,
        aggregate_pipeline_confidence steps ≤ x) ∧
    aggregate_pipeline_confidence exampleConfSteps = 7/10 := by
  refine ⟨?_, ?_, ?_⟩
  · intro h
    unfold aggregate_pipeline_confidence
    rw [h]
  · intro h
    cases hc : successConfidences steps with
    | nil => exact absurd hc h
    | cons c cs =>
      unfold aggregate_pipeline_confidence
      rw [hc]
      constructor
      · exact foldl_min_mem cs c
      · intro x hx
        rcases List.mem_cons.mp hx with h1 | h1
        · rw [h1]
          exact foldl_min_le_init cs c
        · exact foldl_min_le_mem x cs c h1
  · have hred : aggregate_pipeline_confidence exampleConfSteps =
        min (9/10 : ℚ) (7/10) := rfl
    rw [hred, min_eq_right (by norm_num)]

/-- Witness for C3 at the spec's example steps: the aggregate lies among the
successful-step confidences and is a lower bound for them. -/
theorem aggregate_confidence_minimum_witness :
    aggregate_pipeline_confidence exampleConfSteps ∈
      successConfidences exampleConfSteps ∧
    ∀ x ∈ successConfidences exampleConfSteps,
      aggregate_pipeline_confidence exampleConfSteps ≤ x :=
  (aggregate_confidence_minimum exampleConfSteps).2.1 (by decide)

-- ═══════════════════════════════════════════════════════════════════════════
-- C4 — BATCH AVERAGE CONFIDENCE (corrected)
-- ═══════════════════════════════════════════════════════════════════════════

/-- C4 counterexample: a one-item batch whose single item succeeds with
confidence 1/2 (so the claim's mean of successful confidences is
`some (1/2)`), yet the summary produced by execute_batch carries
`average_confidence = none`. -/
theorem batch_average_confidence_counterexample :
    (regMixed.execute_batch clock0 confReq).summary.succeeded = 1 ∧
    ((regMixed.execute_batch clock0 confReq).results.map
      (fun e => e.result.confidence)) = [some (1/2)] ∧
    calculate_batch_confidence
      (regMixed.execute_batch clock0 confReq).results = some (1/2) ∧
    (regMixed.execute_batch clock0 confReq).summary.average_confidence =
      none := by
  refine ⟨rfl, rfl, ?_, rfl⟩
  have hred : calculate_batch_confidence
      (regMixed.execute_batch clock0 confReq).results =
      some ((0 + 1/2 : ℚ) / ((1 : ℕ) : ℚ)) := rfl
  rw [hred]
  norm_num

/-- C4 amended: the summary built by execute_batch always has
average_confidence absent, whatever the item outcomes; the
mean-of-successful-confidences rule is implemented only by the helper
calculate_batch_confidence, which returns the arithmetic mean of the
successful items' confidences and absent when there are none. -/
theorem batch_average_confidence_amended (r : CommandRegistry)
    (clock : BatchClock) (req : BatchRequest)
    (results : List BatchCommandResult) :
    (r.execute_batch clock req).summary.average_confidence = none ∧
    (successItemConfidences results = [] →
      calculate_batch_confidence results = none) ∧
    (successItemConfidences results ≠ [] →
      calculate_batch_confidence results =
        some ((successItemConfidences results).sum /
          (successItemConfidences results).length)) := by
  refine ⟨?_, ?_, ?_⟩
  · cases hc : req.commands with
    | nil =>
      unfold CommandRegistry.execute_batch
      rw [hc]
      rfl
    | cons a as =>
      unfold CommandRegistry.execute_batch
      rw [hc]
      rfl
  · intro h
    unfold calculate_batch_confidence
    rw [h]
    rfl
  · intro h
    cases hc : successItemConfidences results with
    | nil => exact absurd hc h
    | cons c cs =>
      unfold calculate_batch_confidence
      rw [hc]
      rw [if_neg (by simp)]
      rw [foldl_add_eq_sum (c :: cs) 0, zero_add]

/-- Witness for C4's amended claim at the concrete confidence batch. -/
theorem batch_average_confidence_amended_witness :
    (regMixed.execute_batch clock0 confReq).summary.average_confidence =
      none ∧
    calculate_batch_confidence
      (regMixed.execute_batch clock0 confReq).results =
      some ((successItemConfidences
          (regMixed.execute_batch clock0 confReq).results).sum /
        (successItemConfidences
          (regMixed.execute_batch clock0 confReq).results).length) :=
  ⟨(batch_average_confidence_amended regMixed clock0 confReq []).1,
   (batch_average_confidence_amended regMixed clock0 confReq
      (regMixed.execute_batch clock0 confReq).results).2.2 (by decide)⟩

/-- Witness for C10 at the concrete stop-padding request. -/
theorem execute_batch_summary_derived_witness :
    (regMixed.execute_batch clock0 stopReq).summary.skipped = 0 ∧
    (regMixed.execute_batch clock0 stopReq).summary.total =
      (regMixed.execute_batch clock0 stopReq).results.length ∧
    (regMixed.execute_batch clock0 stopReq).summary.succeeded =
      ((regMixed.execute_batch clock0 stopReq).results.filter
        (fun e => e.result.success)).length ∧
    (regMixed.execute_batch clock0 stopReq).summary.failed =
      (regMixed.execute_batch clock0 stopReq).summary.total -
        (regMixed.execute_batch clock0 stopReq).summary.succeeded ∧
    ((regMixed.execute_batch clock0 stopReq).success = true ↔
      (regMixed.execute_batch clock0 stopReq).summary.failed = 0) :=
  execute_batch_summary_derived regMixed clock0 stopReq (by simp [stopReq])

-- ═══════════════════════════════════════════════════════════════════════════
-- C5 — CONDITION OPERATORS
-- ═══════════════════════════════════════════════════════════════════════════

/-- C5: `$exists` holds iff the reference resolves to a present non-null
value, and each numeric comparison returns false (not an error) when the
resolved value is absent or not numeric, else the float comparison against
the threshold. -/
theorem evaluate_condition_operators (ctx : PipelineContext) (ref : String)
    (t : ℚ) :
    (evaluate_condition (.Exists ref) ctx = true ↔
      ∃ v, resolve_variable ref ctx = some v ∧ v ≠ Json.null) ∧
    ((resolve_variable ref ctx).bind Json.asF64 = none →
      evaluate_condition (.Gt ref t) ctx = false ∧
      evaluate_condition (.Gte ref t) ctx = false ∧
      evaluate_condition (.Lt ref t) ctx = false ∧
      evaluate_condition (.Lte ref t) ctx = false) ∧
    (∀ n : ℚ, (resolve_variable ref ctx).bind Json.asF64 = some n →
      evaluate_condition (.Gt ref t) ctx = decide (n > t) ∧
      evaluate_condition (.Gte ref t) ctx = decide (n ≥ t) ∧
      evaluate_condition (.Lt ref t) ctx = decide (n < t) ∧
      evaluate_condition (.Lte ref t) ctx = decide (n ≤ t)) := by
  refine ⟨?_, ?_, ?_⟩
  · simp only [evaluate_condition]
    cases hv : resolve_variable ref ctx with
    | none => simp
    | some v => cases v <;> simp [Json.isNull]
  · intro h
    refine ⟨?_, ?_, ?_, ?_⟩ <;> simp only [evaluate_condition, h] <;> rfl
  · intro n h
    refine ⟨?_, ?_, ?_, ?_⟩ <;> simp only [evaluate_condition, h] <;> rfl

/-- Witness for C5: on the spec's context, `$prev.id` exists and compares
numerically, while the non-numeric `$prev.name` makes `$gt` false. -/
theorem evaluate_condition_operators_witness :
    evaluate_condition (.Exists "$prev.id") prevCtx = true ∧
    evaluate_condition (.Gt "$prev.id" 3) prevCtx = decide ((123 : ℚ) > 3) ∧
    evaluate_condition (.Gt "$prev.name" 3) prevCtx = false :=
  ⟨(evaluate_condition_operators prevCtx "$prev.id" 3).1.mpr
      ⟨Json.num 123, rfl, by simp⟩,
   ((evaluate_condition_operators prevCtx "$prev.id" 3).2.2 123 rfl).1,
   ((evaluate_condition_operators prevCtx "$prev.name" 3).2.1 rfl).1⟩

-- ═══════════════════════════════════════════════════════════════════════════
-- C2 — VARIABLE RESOLUTION
-- ═══════════════════════════════════════════════════════════════════════════

/-- C2: resolve_variable returns a non-`$` string as a literal (never an
error); `$prev.` followed by a path returns the nested value in the previous
step's data (123 in the spec's example); and a missing previous step or a
missing path segment yields absent, not an error. -/
theorem resolve_variable_prev_paths (ctx : PipelineContext) (s p : String)
    (st : StepResult) (d : Json) :
    (strStartsWith s "$" = false →
      resolve_variable s ctx = some (Json.str s)) ∧
    (ctx.previous_result = some st → st.data = some d →
      resolve_variable ("$prev." ++ p) ctx = get_nested_value d p) ∧
    (ctx.previous_result.bind (fun r => r.data) = none →
      resolve_variable ("$prev." ++ p) ctx = none) ∧
    resolve_variable "$prev.id" prevCtx = some (Json.num 123) ∧
    resolve_variable "$prev.missing" prevCtx = none := by
  have hbranch : resolve_variable ("$prev." ++ p) ctx =
      (ctx.previous_result.bind (fun r => r.data)).bind
        (fun d2 => get_nested_value d2 p) := rfl
  refine ⟨?_, ?_, ?_, rfl, rfl⟩
  · intro h
    unfold resolve_variable
    rw [if_pos h]
  · intro h1 h2
    rw [hbranch, h1]
    show st.data.bind (fun d2 => get_nested_value d2 p) = get_nested_value d p
    rw [h2]
    rfl
  · intro h
    rw [hbranch, h]
    rfl

/-- Witness for C2: literal pass-through and the `$prev.id` example on the
concrete context. -/
theorem resolve_variable_prev_paths_witness :
    resolve_variable "hello" prevCtx = some (Json.str "hello") ∧
    resolve_variable ("$prev." ++ "id") prevCtx =
      get_nested_value prevData "id" :=
  ⟨(resolve_variable_prev_paths prevCtx "hello" "id" prevStep prevData).1 rfl,
   (resolve_variable_prev_paths prevCtx "hello" "id" prevStep prevData).2.1
      rfl rfl⟩

-- ═══════════════════════════════════════════════════════════════════════════
-- C9 — STRUCTURAL RESOLUTION OVER JSON TREES
-- ═══════════════════════════════════════════════════════════════════════════

/-- C9: resolve_variables substitutes exactly the `$`-prefixed string leaves
(with null for unresolved references), passes through other strings and all
non-string leaves, and recurses structurally into arrays and objects. -/
theorem resolve_variables_structural (ctx : PipelineContext) (s : String)
    (b : Bool) (q : ℚ) (xs : List Json) (fields : List (String × Json)) :
    (strStartsWith s "$" = true →
      resolve_variables (.str s) ctx =
        (resolve_variable s ctx).getD Json.null) ∧
    (strStartsWith s "$" = false →
      resolve_variables (.str s) ctx = .str s) ∧
    resolve_variables .null ctx = .null ∧
    resolve_variables (.bool b) ctx = .bool b ∧
    resolve_variables (.num q) ctx = .num q ∧
    resolve_variables (.arr xs) ctx =
      .arr (xs.map (fun j => resolve_variables j ctx)) ∧
    resolve_variables (.obj fields) ctx =
      .obj (fields.map (fun kv => (kv.1, resolve_variables kv.2 ctx))) := by
  refine ⟨?_, ?_, ?_, ?_, ?_, ?_, ?_⟩
  · intro h
    simp only [resolve_variables]
    rw [if_pos h]
  · intro h
    simp only [resolve_variables]
    rw [if_neg (by simp [h])]
  · simp only [resolve_variables]
  · simp only [resolve_variables]
  · simp only [resolve_variables]
  · simp only [resolve_variables]
    rw [List.attach_map_val xs (fun j => resolve_variables j ctx)]
  · simp only [resolve_variables]
    rw [List.attach_map_val fields
      (fun kv => (kv.1, resolve_variables kv.2 ctx))]

/-- Witness for C9: unresolved reference leaf, literal leaf, and an array
node on the concrete context. -/
theorem resolve_variables_structural_witness :
    resolve_variables (.str "$prev.missing") prevCtx =
      (resolve_variable "$prev.missing" prevCtx).getD Json.null ∧
    resolve_variables (.str "active") prevCtx = .str "active" ∧
    resolve_variables (.arr [Json.num 5]) prevCtx =
      .arr ([Json.num 5].map (fun j => resolve_variables j prevCtx)) :=
  ⟨(resolve_variables_structural prevCtx "$prev.missing" true 0 [] []).1 rfl,
   (resolve_variables_structural prevCtx "active" true 0 [] []).2.1 rfl,
   (resolve_variables_structural prevCtx "active" true 0 [Json.num 5]
      []).2.2.2.2.2.1⟩

-- ═══════════════════════════════════════════════════════════════════════════
-- C1 — STOP-ON-ERROR PADDING
-- ═══════════════════════════════════════════════════════════════════════════

/-- The batch loop records exactly one result per request item. -/
theorem batchItems_length (r : CommandRegistry) (o : BatchOptions)
    (ms : Nat → Nat) (cmds : List BatchCommand) :
    ∀ i stopped, (r.batchItems o ms cmds i stopped).length = cmds.length := by
  induction cmds with
  | nil => intro i stopped; rfl
  | cons c cs ih =>
    intro i stopped
    simp only [CommandRegistry.batchItems]
    split
    · simp [ih]
    · simp [ih]

/-- Once the loop has stopped, every remaining item is recorded as the
synthetic skipped entry. -/
theorem batchItems_stopped (r : CommandRegistry) (o : BatchOptions)
    (ms : Nat → Nat) (cmds : List BatchCommand) :
    ∀ i, r.batchItems o ms cmds i true = cmds.map skippedEntry := by
  induction cmds with
  | nil => intro i; rfl
  | cons c cs ih =>
    intro i
    show skippedEntry c :: r.batchItems o ms cs (i + 1) true =
      skippedEntry c :: cs.map skippedEntry
    rw [ih (i + 1)]

/-- With continue_on_error=false, a failing item after an all-successful
prefix splits the loop output into an executed block of length
`pre.length + 1` followed by skipped entries for every remaining item. -/
theorem batchItems_split (r : CommandRegistry) (o : BatchOptions)
    (ms : Nat → Nat) (hco : o.continue_on_error = false)
    (c : BatchCommand)
    (hc : (r.execute c.command c.input none).success = false)
    (post : List BatchCommand) :
    ∀ pre : List BatchCommand,
      (∀ x ∈ pre, (r.execute x.command x.input none).success = true) →
      ∀ i, ∃ done : List BatchCommandResult,
        done.length = pre.length + 1 ∧
        r.batchItems o ms (pre ++ c :: post) i false =
          done ++ post.map skippedEntry := by
  intro pre
  induction pre with
  | nil =>
    intro _ i
    refine ⟨[{ id := c.id, command := c.command,
               result := r.execute c.command c.input none,
               duration_ms := some (ms i) }], rfl, ?_⟩
    show ({ id := c.id, command := c.command,
            result := r.execute c.command c.input none,
            duration_ms := some (ms i) } : BatchCommandResult) ::
        r.batchItems o ms post (i + 1)
          (!(r.execute c.command c.input none).success &&
            !o.continue_on_error) = _
    rw [hc, hco]
    show _ :: r.batchItems o ms post (i + 1) true = _
    rw [batchItems_stopped r o ms post (i + 1)]
    rfl
  | cons x xs ih =>
    intro hpre i
    have hx : (r.execute x.command x.input none).success = true :=
      hpre x (List.mem_cons_self _ _)
    obtain ⟨done, hlen, heq⟩ :=
      ih (fun y hy => hpre y (List.mem_cons_of_mem _ hy)) (i + 1)
    refine ⟨{ id := x.id, command := x.command,
              result := r.execute x.command x.input none,
              duration_ms := some (ms i) } :: done, by simp [hlen], ?_⟩
    show ({ id := x.id, command := x.command,
            result := r.execute x.command x.input none,
            duration_ms := some (ms i) } : BatchCommandResult) ::
        r.batchItems o ms (xs ++ c :: post) (i + 1)
          (!(r.execute x.command x.input none).success &&
            !o.continue_on_error) = _
    rw [hx]
    show _ :: r.batchItems o ms (xs ++ c :: post) (i + 1) false = _
    rw [heq]
    rfl

/-- C1: with continue_on_error=false, when every item before position k
succeeds and the item at position k fails, the batch result has exactly one
entry per request item, and every entry after position k preserves the
item's id and command and carries the synthetic COMMAND_SKIPPED error with a
recorded duration of zero. -/
theorem batch_stop_pads_skipped (r : CommandRegistry) (clock : BatchClock)
    (pre : List BatchCommand) (c : BatchCommand) (post : List BatchCommand)
    (options : BatchOptions) (bctx : Option (List (String × Json)))
    (hco : options.continue_on_error = false)
    (hpre : ∀ x ∈ pre, (r.execute x.command x.input none).success = true)
    (hc : (r.execute c.command c.input none).success = false) :
    (r.execute_batch clock
        { commands := pre ++ c :: post, options := options,
          context := bctx }).results.length = (pre ++ c :: post).length ∧
    ∀ j, pre.length + 1 ≤ j → j < (pre ++ c :: post).length →
      ∃ item cmdj,
        (pre ++ c :: post)[j]? = some cmdj ∧
        (r.execute_batch clock
          { commands := pre ++ c :: post, options := options,
            context := bctx }).results[j]? = some item ∧
        item.id = cmdj.id ∧
        item.command = cmdj.command ∧
        item.result.success = false ∧
        item.result.error = some skippedCommandError ∧
        skippedCommandError.code = "COMMAND_SKIPPED" ∧
        item.duration_ms = some 0 := by
  have hne : (pre ++ c :: post).isEmpty = false := by
    cases pre <;> rfl
  have hres : (r.execute_batch clock
      { commands := pre ++ c :: post, options := options,
        context := bctx }).results =
      r.batchItems options clock.itemMs (pre ++ c :: post) 0 false := by
    unfold CommandRegistry.execute_batch
    rw [hne]
    rfl
  obtain ⟨done, hlen, heq⟩ :=
    batchItems_split r options clock.itemMs hco c hc post pre hpre 0
  rw [hres, heq]
  constructor
  · simp [hlen]
    omega
  · intro j hj1 hj2
    have hjpost : j - done.length < post.length := by
      rw [List.length_append, List.length_cons] at hj2
      omega
    obtain ⟨cmdj, hcmdj⟩ :
        ∃ cmdj, post[j - done.length]? = some cmdj := by
      refine ⟨post.get ⟨j - done.length, hjpost⟩, ?_⟩
      rw [List.getElem?_eq_some_iff]
      exact ⟨hjpost, rfl⟩
    have hcmdj2 : post[j - (pre.length + 1)]? = some cmdj := by
      rw [← hlen]
      exact hcmdj
    refine ⟨skippedEntry cmdj, cmdj, ?_, ?_, rfl, rfl, rfl, rfl, rfl, rfl⟩
    · rw [List.append_cons, List.getElem?_append_right (by simp; omega)]
      simpa using hcmdj2
    · rw [List.getElem?_append_right (by omega), List.getElem?_map, hcmdj]
      rfl

/-- Witness for C1: in the concrete four-item batch the second item fails,
so items three and four are recorded as COMMAND_SKIPPED entries and the
result list length matches the request. -/
theorem batch_stop_pads_skipped_witness :
    (regMixed.execute_batch clock0 stopReq).results.length =
      stopReq.commands.length ∧
    ∃ item cmdj,
      stopReq.commands[2]? = some cmdj ∧
      (regMixed.execute_batch clock0 stopReq).results[2]? = some item ∧
      item.id = cmdj.id ∧
      item.command = cmdj.command ∧
      item.result.success = false ∧
      item.result.error = some skippedCommandError ∧
      skippedCommandError.code = "COMMAND_SKIPPED" ∧
      item.duration_ms = some 0 := by
  have h := batch_stop_pads_skipped regMixed clock0
    [{ id := "1", command := "test.echo", input := Json.null,
       tags := none, priority := none }]
    { id := "2", command := "test.fail", input := Json.null,
      tags := none, priority := none }
    [{ id := "3", command := "test.echo", input := Json.null,
       tags := none, priority := none },
     { id := "4", command := "test.missing", input := Json.null,
       tags := none, priority := none }]
    BatchOptions.default none rfl
    (by intro x hx; simp at hx; subst hx; rfl) rfl
  exact ⟨h.1, h.2 2 (by decide) (by decide)⟩

end AFD
